import Mathlib

/-!
Shallow embedding of the estimate-vs-bill reconciliation tool (`src/app.py`).

Scope of the embedding:
* the two PDF line extractors `extract_from_bill_pdf` and
  `extract_from_estimate_pdf` (src/app.py lines 70-159), including the
  regular-expression matching they perform, modelled character-by-character
  with Python `re` search semantics specialised to the concrete patterns;
* the helper `safe_float_convert` (lines 58-64), restricted to the strings
  the amount patterns can produce, on which it never fails;
* the reconciliation engine `safe_comparison` (lines 206-303), with pandas
  DataFrames modelled as lists of records and the outer merge on the
  `Part Number` index modelled as a per-key cross product over the sorted
  union of keys, exactly as `pd.merge(..., how='outer')` behaves.

Python floats are modelled as exact rationals: every amount in scope is
parsed from a short decimal literal, on which float comparison agrees with
rational comparison.  Characters are treated as ASCII (the character classes
`\s`, `\d`, `[A-Z0-9\-]`, `[\d,]` of the source patterns are ASCII-
interpreted).
-/

set_option maxHeartbeats 1000000

/-- ASCII model of the regex whitespace class `\s` (also used for `str.strip`). -/
def isPySpace (c : Char) : Bool :=
  c == ' ' || c == '\t' || c == '\n' || c == '\r' || c == '\x0b' || c == '\x0c'

/-- ASCII model of the regex digit class `\d`. -/
def isPyDigit (c : Char) : Bool := c.isDigit

/-- The character class `[A-Z0-9\-]` of the part-number group. -/
def isPartChar (c : Char) : Bool := c.isUpper || c.isDigit || c == '-'

/-- The character class `[\d,]` appearing in the amount patterns. -/
def isDigitComma (c : Char) : Bool := c.isDigit || c == ','

/-- Python `str.strip()`: drop leading and trailing whitespace. -/
def pyStrip (cs : List Char) : List Char :=
  ((cs.dropWhile isPySpace).reverse.dropWhile isPySpace).reverse

/-- Python `text.split('\n')`. -/
def splitOnNl : List Char → List (List Char)
  | [] => [[]]
  | '\n' :: rest => [] :: splitOnNl rest
  | c :: rest =>
    match splitOnNl rest with
    | [] => [[c]]
    | l :: ls => (c :: l) :: ls

/-- Value of a (possibly empty) run of decimal digits. -/
def digitsVal (ds : List Char) : Nat :=
  ds.foldl (fun n c => 10 * n + (c.toNat - 48)) 0

/-- `safe_float_convert` (src/app.py lines 58-64): remove commas, then parse as
a decimal number.  The amount groups of the extraction patterns only ever
produce strings of digits and commas with at most one dot followed by digits,
on which the conversion never fails, so it is modelled as a total function
into ℚ. -/
def safe_float_convert (s : List Char) : ℚ :=
  let t := s.filter (fun c => c ≠ ',')
  let ip := t.takeWhile (fun c => c ≠ '.')
  let rest := t.dropWhile (fun c => c ≠ '.')
  match rest with
  | [] => (digitsVal ip : ℚ)
  | _ :: fp => mkRat (digitsVal ip * 10 ^ fp.length + digitsVal fp) (10 ^ fp.length)

/--
`line_pattern.search(line)` for
`^\s*\d+\s+(?P<part_number>[A-Z0-9\-]+)\s+(?P<rest_of_line>.*)`
(src/app.py lines 79 and 124, the two extractors use the same pattern).
Because of `^` the search can only succeed at position 0, and since the
character classes `\s`, `\d`, `[A-Z0-9\-]` are pairwise disjoint on the
boundary characters involved, greedy matching without backtracking is exact.
Returns `(part_number group, rest_of_line group)` on success. -/
def lineMatch (cs : List Char) : Option (List Char × List Char) :=
  let t1 := cs.dropWhile isPySpace
  let serial := t1.takeWhile isPyDigit
  let t2 := t1.dropWhile isPyDigit
  if serial = [] then none else
  let sp1 := t2.takeWhile isPySpace
  let t3 := t2.dropWhile isPySpace
  if sp1 = [] then none else
  let part := t3.takeWhile isPartChar
  let t4 := t3.dropWhile isPartChar
  if part = [] then none else
  let sp2 := t4.takeWhile isPySpace
  let rest := t4.dropWhile isPySpace
  if sp2 = [] then none else
  some (part, rest)

/-- Match `[\d,]+\.` at the head: the greedy `[\d,]+` run followed by a dot.
Returns (integer-part characters, remainder after the dot). -/
def matchIntDot (cs : List Char) : Option (List Char × List Char) :=
  let ip := cs.takeWhile isDigitComma
  let r := cs.dropWhile isDigitComma
  if ip = [] then none else
  match r with
  | '.' :: r2 => some (ip, r2)
  | _ => none

/-- Match `[\d,]+\.\d{2,3}` followed by `\s+` at the head of `cs`.  The digit
run after the dot must have length exactly 2 or 3 (a longer run makes both
greedy alternatives of `\d{2,3}` land on a digit where `\s` is required, a
shorter one fails the repetition count).  Returns (matched number characters,
remainder after the whitespace run). -/
def matchNumSp (cs : List Char) : Option (List Char × List Char) :=
  match matchIntDot cs with
  | none => none
  | some (ip, r) =>
    let ds := r.takeWhile isPyDigit
    if ds.length = 2 ∨ ds.length = 3 then
      let r2 := r.drop ds.length
      if (r2.takeWhile isPySpace) = [] then none
      else some (ip ++ '.' :: ds, r2.dropWhile isPySpace)
    else none

/-- Match `[\d,]+\.\d{2,3}` at the head of `cs` with nothing required after it
(the final, named `amount` group of the bill pattern): greedily take three
fractional digits when available, else two. -/
def matchNumEnd (cs : List Char) : Option (List Char) :=
  match matchIntDot cs with
  | none => none
  | some (ip, r) =>
    let ds := r.takeWhile isPyDigit
    if 3 ≤ ds.length then some (ip ++ '.' :: ds.take 3)
    else if ds.length = 2 then some (ip ++ '.' :: ds.take 2)
    else none

/-- Attempt to match the full bill amount pattern
`(?:[\d,]+\.\d{2,3})\s+(?:[\d,]+\.\d{2,3})\s+(?:[\d,]+\.\d{2,3})\s+(?P<amount>[\d,]+\.\d{2,3})`
(src/app.py lines 84-89) at the head of `cs`, returning the four matched
number strings.  Failure of a later component cannot be repaired by
backtracking into an earlier one (every shorter greedy choice places a
character of the wrong class at the next position), so the sequential
composition is exact. -/
def billRunAt (cs : List Char) : Option (List Char × List Char × List Char × List Char) :=
  match matchNumSp cs with
  | none => none
  | some (f1, r1) =>
    match matchNumSp r1 with
    | none => none
    | some (f2, r2) =>
      match matchNumSp r2 with
      | none => none
      | some (f3, r3) =>
        match matchNumEnd r3 with
        | none => none
        | some f4 => some (f1, f2, f3, f4)

/-- `amount_pattern.search` for the bill pattern: leftmost position at which
`billRunAt` succeeds. -/
def billRunSearch : List Char → Option (List Char × List Char × List Char × List Char)
  | [] => none
  | c :: cs =>
    match billRunAt (c :: cs) with
    | some r => some r
    | none => billRunSearch cs

/-- Match one estimate column `(?:[\d,]+\.\d{2,3}|\d+)` followed by `\s+` at
the head of `cs`.  The first alternative is tried first; committing to it is
sound because whenever it matches, the second alternative (`\d+`) is
necessarily followed by `,` or `.`, never by whitespace, so it can never
rescue a failed continuation. -/
def matchMSp (cs : List Char) : Option (List Char) :=
  match matchNumSp cs with
  | some (_, r) => some r
  | none =>
    let ds := cs.takeWhile isPyDigit
    if ds = [] then none else
    let r := cs.drop ds.length
    if (r.takeWhile isPySpace) = [] then none
    else some (r.dropWhile isPySpace)

/-- `cs` begins with the literal `pre`. -/
def startsWithLit : List Char → List Char → Bool
  | [], _ => true
  | _ :: _, [] => false
  | p :: ps, c :: cs => p == c && startsWithLit ps cs

/-- The trailing service-type alternation `(?:Replace|Repair Allow)`. -/
def serviceTypeLit (cs : List Char) : Bool :=
  startsWithLit "Replace".data cs || startsWithLit "Repair Allow".data cs

/-- Match the final estimate group `(?P<amount>[\d,]+\.\d{2,3}|\d+)` followed
by `\s+(?:Replace|Repair Allow)` at the head of `cs`, returning the matched
amount string.  Both alternatives are tried in pattern order. -/
def matchAmountLit (cs : List Char) : Option (List Char) :=
  let alt1 : Option (List Char) :=
    match matchIntDot cs with
    | none => none
    | some (ip, r) =>
      let ds := r.takeWhile isPyDigit
      if ds.length = 2 ∨ ds.length = 3 then
        let r2 := r.drop ds.length
        if (r2.takeWhile isPySpace) = [] then none
        else if serviceTypeLit (r2.dropWhile isPySpace) then some (ip ++ '.' :: ds)
        else none
      else none
  match alt1 with
  | some a => some a
  | none =>
    let ds := cs.takeWhile isPyDigit
    if ds = [] then none else
    let r := cs.drop ds.length
    if (r.takeWhile isPySpace) = [] then none
    else if serviceTypeLit (r.dropWhile isPySpace) then some ds
    else none

/-- Attempt to match the full estimate amount pattern (src/app.py lines
129-136): four columns `(?:[\d,]+\.\d{2,3}|\d+)\s+` and then the named amount
group followed by `\s+(?:Replace|Repair Allow)`. -/
def estRunAt (cs : List Char) : Option (List Char) :=
  match matchMSp cs with
  | none => none
  | some r1 =>
    match matchMSp r1 with
    | none => none
    | some r2 =>
      match matchMSp r2 with
      | none => none
      | some r3 =>
        match matchMSp r3 with
        | none => none
        | some r4 => matchAmountLit r4

/-- `amount_pattern.search` for the estimate pattern: leftmost position at
which `estRunAt` succeeds. -/
def estRunSearch : List Char → Option (List Char)
  | [] => none
  | c :: cs =>
    match estRunAt (c :: cs) with
    | some r => some r
    | none => estRunSearch cs

/-- `re.search(r"[\d,]+\.?\d*", rest_of_line)` (src/app.py lines 105 and 151)
can match starting at any digit-or-comma character, so its `.start()` is the
index of the first such character. -/
def firstNumIdx : List Char → Option Nat
  | [] => none
  | c :: cs => if isDigitComma c then some 0 else (firstNumIdx cs).map (· + 1)

/-- One extracted line item (the dicts with keys `Part Number`,
`Description`, `Amount` built by the extractors). -/
structure Record where
  key : String
  description : String
  amount : ℚ
deriving DecidableEq

/-- The body of the per-line loop of `extract_from_bill_pdf` (src/app.py
lines 93-112): match the line pattern, strip the rest of the line, search the
four-number amount run (the amount is its fourth number), derive the
description as the stripped span before the first digit-or-comma character. -/
def extractBillLine (line : List Char) : Option Record :=
  match lineMatch line with
  | none => none
  | some (part, rest0) =>
    let rest := pyStrip rest0
    match billRunSearch rest with
    | none => none
    | some (_, _, _, f4) =>
      match firstNumIdx rest with
      | none => none
      | some i =>
        some ⟨String.mk part, String.mk (pyStrip (rest.take i)), safe_float_convert f4⟩

/-- The body of the per-line loop of `extract_from_estimate_pdf` (src/app.py
lines 140-158). -/
def extractEstimateLine (line : List Char) : Option Record :=
  match lineMatch line with
  | none => none
  | some (part, rest0) =>
    let rest := pyStrip rest0
    match estRunSearch rest with
    | none => none
    | some amt =>
      match firstNumIdx rest with
      | none => none
      | some i =>
        some ⟨String.mk part, String.mk (pyStrip (rest.take i)), safe_float_convert amt⟩

/-- `extract_from_bill_pdf` (src/app.py lines 70-113): the document is the
list of page texts; each page is split on newlines and every line either
contributes one record or is skipped. -/
def extract_from_bill_pdf (doc : List String) : List Record :=
  doc.flatMap (fun page => (splitOnNl page.data).filterMap extractBillLine)

/-- `extract_from_estimate_pdf` (src/app.py lines 115-159). -/
def extract_from_estimate_pdf (doc : List String) : List Record :=
  doc.flatMap (fun page => (splitOnNl page.data).filterMap extractEstimateLine)

/-- One row of a both-sides bucket (`increased`/`reduced`): part number index,
`Description_bill`, `Amount_bill`, `Amount_estimate` (src/app.py lines
278-286: both buckets select the bill-side description column). -/
structure PairRow where
  key : String
  description : String
  bill_amount : ℚ
  estimate_amount : ℚ
deriving DecidableEq

/-- One row of the outer-merged frame `merged_df` (src/app.py lines 251-258):
the part-number index value, the bill-side columns and the estimate-side
columns, each absent when the key is missing on that side (the `_merge`
indicator is recovered from which sides are present). -/
structure MergedRow where
  key : String
  bill : Option Record
  est : Option Record
deriving DecidableEq

/-- The four output buckets of `safe_comparison` (src/app.py lines 211-216):
the `new` bucket carries bill-side description and amount, the `removed`
bucket estimate-side description and amount, so both reuse `Record`. -/
structure ComparisonResults where
  increased : List PairRow
  reduced : List PairRow
  new : List Record
  removed : List Record
deriving DecidableEq

def emptyResults : ComparisonResults := ⟨[], [], [], []⟩

/-- Total order on strings by code points, used only to reproduce the fact
that `pd.merge(..., how='outer')` sorts the key union lexicographically. -/
def strLeB : List Char → List Char → Bool
  | [], _ => true
  | _ :: _, [] => false
  | a :: as, b :: bs =>
    if a.toNat = b.toNat then strLeB as bs
    else if a.toNat < b.toNat then true else false

/-- The sorted union of the `Part Number` index values of the two frames, as
produced by the outer merge. -/
def keyUnion (bill_df estimate_df : List Record) : List String :=
  List.insertionSort (fun a b : String => strLeB a.data b.data = true)
    ((bill_df.map Record.key ++ estimate_df.map Record.key).dedup)

/-- The merged rows contributed by one key: pandas joins on a non-unique
index by pairing every left (bill) row with every right (estimate) row
sharing the key (a per-key cross product), and keeps single-sided rows with
the other side absent. -/
def matchesFor (bill_df estimate_df : List Record) (k : String) : List MergedRow :=
  let bs := bill_df.filter (fun r => r.key = k)
  let es := estimate_df.filter (fun r => r.key = k)
  if bs = [] then es.map (fun e => ⟨k, none, some e⟩)
  else if es = [] then bs.map (fun b => ⟨k, some b, none⟩)
  else bs.flatMap (fun b => es.map (fun e => ⟨k, some b, some e⟩))

/-- `merged_df = bill_df.merge(estimate_df, how='outer', left_index=True,
right_index=True, indicator=True)` (src/app.py lines 251-258). -/
def mergedRows (bill_df estimate_df : List Record) : List MergedRow :=
  (keyUnion bill_df estimate_df).flatMap (matchesFor bill_df estimate_df)

/-- `safe_comparison(estimate_df, bill_df)` (src/app.py lines 206-303).
The early returns for empty inputs (lines 219-226), the outer merge, the four
masks (`increased`: both sides and bill amount strictly greater; `reduced`:
both sides and bill amount strictly smaller; `new`: `left_only`, i.e. bill
only; `removed`: `right_only`, i.e. estimate only) and the column selections
(lines 266-296) are reproduced.  Note there is no bucket for keys present on
both sides with equal amounts: such rows satisfy no mask. -/
def safe_comparison (estimate_df bill_df : List Record) : ComparisonResults :=
  if estimate_df = [] ∧ bill_df = [] then emptyResults
  else if estimate_df = [] then { emptyResults with new := bill_df }
  else if bill_df = [] then { emptyResults with removed := estimate_df }
  else
    let merged := mergedRows bill_df estimate_df
    { increased := merged.filterMap (fun m =>
        match m.bill, m.est with
        | some b, some e =>
          if e.amount < b.amount then some ⟨m.key, b.description, b.amount, e.amount⟩ else none
        | _, _ => none),
      reduced := merged.filterMap (fun m =>
        match m.bill, m.est with
        | some b, some e =>
          if b.amount < e.amount then some ⟨m.key, b.description, b.amount, e.amount⟩ else none
        | _, _ => none),
      new := merged.filterMap (fun m =>
        match m.bill, m.est with
        | some b, none => some (⟨m.key, b.description, b.amount⟩ : Record)
        | _, _ => none),
      removed := merged.filterMap (fun m =>
        match m.bill, m.est with
        | none, some e => some (⟨m.key, e.description, e.amount⟩ : Record)
        | _, _ => none) }

/-- The key `k` has a row in the `increased` bucket. -/
def hasKeyInc (res : ComparisonResults) (k : String) : Bool :=
  res.increased.any (fun p => p.key == k)

/-- The key `k` has a row in the `reduced` bucket. -/
def hasKeyRed (res : ComparisonResults) (k : String) : Bool :=
  res.reduced.any (fun p => p.key == k)

/-- The key `k` has a row in the `new` bucket. -/
def hasKeyNew (res : ComparisonResults) (k : String) : Bool :=
  res.new.any (fun r => r.key == k)

/-- The key `k` has a row in the `removed` bucket. -/
def hasKeyRem (res : ComparisonResults) (k : String) : Bool :=
  res.removed.any (fun r => r.key == k)

/-- In how many of the four output buckets does the key `k` appear? -/
def bucketCount (res : ComparisonResults) (k : String) : Nat :=
  (if hasKeyInc res k then 1 else 0) + (if hasKeyRed res k then 1 else 0) +
  (if hasKeyNew res k then 1 else 0) + (if hasKeyRem res k then 1 else 0)

/-! ### Membership characterisations of the merge and the four buckets -/

theorem mem_keyUnion_iff (bill_df estimate_df : List Record) (k : String) :
    k ∈ keyUnion bill_df estimate_df ↔
      (∃ b ∈ bill_df, b.key = k) ∨ (∃ e ∈ estimate_df, e.key = k) := by
  unfold keyUnion
  rw [List.mem_insertionSort, List.mem_dedup, List.mem_append]
  simp [List.mem_map]

theorem mem_matchesFor_iff (bill_df estimate_df : List Record) (k : String) (m : MergedRow) :
    m ∈ matchesFor bill_df estimate_df k ↔
      ((∃ b ∈ bill_df, ∃ e ∈ estimate_df, b.key = k ∧ e.key = k ∧ m = ⟨k, some b, some e⟩) ∨
       ((∀ e ∈ estimate_df, e.key ≠ k) ∧ ∃ b ∈ bill_df, b.key = k ∧ m = ⟨k, some b, none⟩) ∨
       ((∀ b ∈ bill_df, b.key ≠ k) ∧ ∃ e ∈ estimate_df, e.key = k ∧ m = ⟨k, none, some e⟩)) := by
  simp only [matchesFor]
  split_ifs with h1 h2
  · rw [List.filter_eq_nil_iff] at h1
    simp only [decide_eq_true_eq] at h1
    simp only [List.mem_map, List.mem_filter, decide_eq_true_eq]
    constructor
    · rintro ⟨e, ⟨he, hek⟩, rfl⟩
      exact Or.inr (Or.inr ⟨fun b hb hbk => h1 b hb hbk, e, he, hek, rfl⟩)
    · rintro (⟨b, hb, e, he, hbk, hek, _⟩ | ⟨_, b, hb, hbk, _⟩ | ⟨_, e, he, hek, rfl⟩)
      · exact absurd hbk (h1 b hb)
      · exact absurd hbk (h1 b hb)
      · exact ⟨e, ⟨he, hek⟩, rfl⟩
  · rw [List.filter_eq_nil_iff] at h2
    simp only [decide_eq_true_eq] at h2
    simp only [List.mem_map, List.mem_filter, decide_eq_true_eq]
    constructor
    · rintro ⟨b, ⟨hb, hbk⟩, rfl⟩
      exact Or.inr (Or.inl ⟨fun e he hek => h2 e he hek, b, hb, hbk, rfl⟩)
    · rintro (⟨b, hb, e, he, hbk, hek, _⟩ | ⟨_, b, hb, hbk, rfl⟩ | ⟨_, e, he, hek, _⟩)
      · exact absurd hek (h2 e he)
      · exact ⟨b, ⟨hb, hbk⟩, rfl⟩
      · exact absurd hek (h2 e he)
  · simp only [List.mem_flatMap, List.mem_map, List.mem_filter, decide_eq_true_eq]
    constructor
    · rintro ⟨b, ⟨hb, hbk⟩, e, ⟨he, hek⟩, rfl⟩
      exact Or.inl ⟨b, hb, e, he, hbk, hek, rfl⟩
    · rintro (⟨b, hb, e, he, hbk, hek, rfl⟩ | ⟨hne, b, hb, hbk, _⟩ | ⟨hnb, e, he, hek, _⟩)
      · exact ⟨b, ⟨hb, hbk⟩, e, ⟨he, hek⟩, rfl⟩
      · refine absurd (List.filter_eq_nil_iff.mpr ?_) h2
        intro e he
        simpa using hne e he
      · refine absurd (List.filter_eq_nil_iff.mpr ?_) h1
        intro b hb
        simpa using hnb b hb

theorem mem_increased_iff (estimate_df bill_df : List Record) (p : PairRow) :
    p ∈ (safe_comparison estimate_df bill_df).increased ↔
      ∃ b ∈ bill_df, ∃ e ∈ estimate_df, e.key = b.key ∧ e.amount < b.amount ∧
        p = ⟨b.key, b.description, b.amount, e.amount⟩ := by
  unfold safe_comparison
  split_ifs with h1 h2 h3
  · simp [emptyResults, h1.1]
  · simp [emptyResults, h2]
  · simp [emptyResults, h3]
  · simp only [mergedRows, List.mem_filterMap, List.mem_flatMap]
    constructor
    · rintro ⟨m, ⟨kk, hk, hm⟩, hf⟩
      rw [mem_matchesFor_iff] at hm
      rcases hm with ⟨b, hb, e, he, hbk, hek, rfl⟩ | ⟨_, b, hb, hbk, rfl⟩ | ⟨_, e, he, hek, rfl⟩
      · simp only [] at hf
        split_ifs at hf with hlt
        cases hf
        exact ⟨b, hb, e, he, hek.trans hbk.symm, hlt, by rw [hbk]⟩
      · cases hf
      · cases hf
    · rintro ⟨b, hb, e, he, hek, hlt, rfl⟩
      refine ⟨⟨b.key, some b, some e⟩, ⟨b.key, ?_, ?_⟩, ?_⟩
      · rw [mem_keyUnion_iff]
        exact Or.inl ⟨b, hb, rfl⟩
      · rw [mem_matchesFor_iff]
        exact Or.inl ⟨b, hb, e, he, rfl, hek, rfl⟩
      · simp only [if_pos hlt]

theorem mem_reduced_iff (estimate_df bill_df : List Record) (p : PairRow) :
    p ∈ (safe_comparison estimate_df bill_df).reduced ↔
      ∃ b ∈ bill_df, ∃ e ∈ estimate_df, e.key = b.key ∧ b.amount < e.amount ∧
        p = ⟨b.key, b.description, b.amount, e.amount⟩ := by
  unfold safe_comparison
  split_ifs with h1 h2 h3
  · simp [emptyResults, h1.1]
  · simp [emptyResults, h2]
  · simp [emptyResults, h3]
  · simp only [mergedRows, List.mem_filterMap, List.mem_flatMap]
    constructor
    · rintro ⟨m, ⟨kk, hk, hm⟩, hf⟩
      rw [mem_matchesFor_iff] at hm
      rcases hm with ⟨b, hb, e, he, hbk, hek, rfl⟩ | ⟨_, b, hb, hbk, rfl⟩ | ⟨_, e, he, hek, rfl⟩
      · simp only [] at hf
        split_ifs at hf with hlt
        cases hf
        exact ⟨b, hb, e, he, hek.trans hbk.symm, hlt, by rw [hbk]⟩
      · cases hf
      · cases hf
    · rintro ⟨b, hb, e, he, hek, hlt, rfl⟩
      refine ⟨⟨b.key, some b, some e⟩, ⟨b.key, ?_, ?_⟩, ?_⟩
      · rw [mem_keyUnion_iff]
        exact Or.inl ⟨b, hb, rfl⟩
      · rw [mem_matchesFor_iff]
        exact Or.inl ⟨b, hb, e, he, rfl, hek, rfl⟩
      · simp only [if_pos hlt]

theorem mem_new_iff (estimate_df bill_df : List Record) (r : Record) :
    r ∈ (safe_comparison estimate_df bill_df).new ↔
      r ∈ bill_df ∧ ∀ e ∈ estimate_df, e.key ≠ r.key := by
  unfold safe_comparison
  split_ifs with h1 h2 h3
  · simp [emptyResults, h1.2]
  · subst h2
    simp
  · simp [emptyResults, h3]
  · simp only [mergedRows, List.mem_filterMap, List.mem_flatMap]
    constructor
    · rintro ⟨m, ⟨kk, hk, hm⟩, hf⟩
      rw [mem_matchesFor_iff] at hm
      rcases hm with ⟨b, hb, e, he, hbk, hek, rfl⟩ | ⟨hne, b, hb, hbk, rfl⟩ | ⟨_, e, he, hek, rfl⟩
      · cases hf
      · cases hf
        cases b
        exact ⟨by simpa [← hbk] using hb, by simpa [← hbk] using hne⟩
      · cases hf
    · rintro ⟨hr, hne⟩
      refine ⟨⟨r.key, some r, none⟩, ⟨r.key, ?_, ?_⟩, ?_⟩
      · rw [mem_keyUnion_iff]
        exact Or.inl ⟨r, hr, rfl⟩
      · rw [mem_matchesFor_iff]
        exact Or.inr (Or.inl ⟨hne, r, hr, rfl, rfl⟩)
      · cases r
        rfl

theorem mem_removed_iff (estimate_df bill_df : List Record) (r : Record) :
    r ∈ (safe_comparison estimate_df bill_df).removed ↔
      r ∈ estimate_df ∧ ∀ b ∈ bill_df, b.key ≠ r.key := by
  unfold safe_comparison
  split_ifs with h1 h2 h3
  · simp [emptyResults, h1.1]
  · simp [emptyResults, h2]
  · subst h3
    simp
  · simp only [mergedRows, List.mem_filterMap, List.mem_flatMap]
    constructor
    · rintro ⟨m, ⟨kk, hk, hm⟩, hf⟩
      rw [mem_matchesFor_iff] at hm
      rcases hm with ⟨b, hb, e, he, hbk, hek, rfl⟩ | ⟨_, b, hb, hbk, rfl⟩ | ⟨hnb, e, he, hek, rfl⟩
      · cases hf
      · cases hf
      · cases hf
        cases e
        exact ⟨by simpa [← hek] using he, by simpa [← hek] using hnb⟩
    · rintro ⟨hr, hnb⟩
      refine ⟨⟨r.key, none, some r⟩, ⟨r.key, ?_, ?_⟩, ?_⟩
      · rw [mem_keyUnion_iff]
        exact Or.inr ⟨r, hr, rfl⟩
      · rw [mem_matchesFor_iff]
        exact Or.inr (Or.inr ⟨hnb, r, hr, rfl, rfl⟩)
      · cases r
        rfl

theorem hasKeyInc_iff (res : ComparisonResults) (k : String) :
    hasKeyInc res k = true ↔ ∃ p ∈ res.increased, p.key = k := by
  simp [hasKeyInc, List.any_eq_true]

theorem hasKeyRed_iff (res : ComparisonResults) (k : String) :
    hasKeyRed res k = true ↔ ∃ p ∈ res.reduced, p.key = k := by
  simp [hasKeyRed, List.any_eq_true]

theorem hasKeyNew_iff (res : ComparisonResults) (k : String) :
    hasKeyNew res k = true ↔ ∃ r ∈ res.new, r.key = k := by
  simp [hasKeyNew, List.any_eq_true]

theorem hasKeyRem_iff (res : ComparisonResults) (k : String) :
    hasKeyRem res k = true ↔ ∃ r ∈ res.removed, r.key = k := by
  simp [hasKeyRem, List.any_eq_true]

/-- On a side whose keys are pairwise distinct, any two records sharing a key
coincide. -/
theorem key_unique {df : List Record} (hnd : (df.map Record.key).Nodup)
    {x y : Record} (hx : x ∈ df) (hy : y ∈ df) (hxy : x.key = y.key) : x = y :=
  List.inj_on_of_nodup_map hnd hx hy hxy

/-! ### Per-scenario bucket flags (shared helpers) -/

/-- A key present only on the bill side lies in the `new` bucket and no other. -/
theorem flags_only_bill {estimate_df bill_df : List Record} {k : String} {b : Record}
    (hb : b ∈ bill_df) (hbk : b.key = k) (hne : ∀ e ∈ estimate_df, e.key ≠ k) :
    hasKeyNew (safe_comparison estimate_df bill_df) k = true ∧
    hasKeyInc (safe_comparison estimate_df bill_df) k = false ∧
    hasKeyRed (safe_comparison estimate_df bill_df) k = false ∧
    hasKeyRem (safe_comparison estimate_df bill_df) k = false := by
  refine ⟨?_, ?_, ?_, ?_⟩
  · rw [hasKeyNew_iff]
    exact ⟨b, (mem_new_iff _ _ b).mpr ⟨hb, by rw [hbk]; exact hne⟩, hbk⟩
  · rw [← Bool.not_eq_true, hasKeyInc_iff]
    rintro ⟨p, hp, hpk⟩
    obtain ⟨b', -, e', he', hek, -, rfl⟩ := (mem_increased_iff _ _ p).mp hp
    exact hne e' he' (hek.trans hpk)
  · rw [← Bool.not_eq_true, hasKeyRed_iff]
    rintro ⟨p, hp, hpk⟩
    obtain ⟨b', -, e', he', hek, -, rfl⟩ := (mem_reduced_iff _ _ p).mp hp
    exact hne e' he' (hek.trans hpk)
  · rw [← Bool.not_eq_true, hasKeyRem_iff]
    rintro ⟨r, hr, hrk⟩
    obtain ⟨hre, hnb⟩ := (mem_removed_iff _ _ r).mp hr
    exact hnb b hb (by rw [hbk, hrk])

/-- A key present only on the estimate side lies in the `removed` bucket and
no other. -/
theorem flags_only_est {estimate_df bill_df : List Record} {k : String} {e : Record}
    (he : e ∈ estimate_df) (hek : e.key = k) (hnb : ∀ b ∈ bill_df, b.key ≠ k) :
    hasKeyRem (safe_comparison estimate_df bill_df) k = true ∧
    hasKeyInc (safe_comparison estimate_df bill_df) k = false ∧
    hasKeyRed (safe_comparison estimate_df bill_df) k = false ∧
    hasKeyNew (safe_comparison estimate_df bill_df) k = false := by
  refine ⟨?_, ?_, ?_, ?_⟩
  · rw [hasKeyRem_iff]
    exact ⟨e, (mem_removed_iff _ _ e).mpr ⟨he, by rw [hek]; exact hnb⟩, hek⟩
  · rw [← Bool.not_eq_true, hasKeyInc_iff]
    rintro ⟨p, hp, hpk⟩
    obtain ⟨b', hb', e', -, -, -, rfl⟩ := (mem_increased_iff _ _ p).mp hp
    exact hnb b' hb' hpk
  · rw [← Bool.not_eq_true, hasKeyRed_iff]
    rintro ⟨p, hp, hpk⟩
    obtain ⟨b', hb', e', -, -, -, rfl⟩ := (mem_reduced_iff _ _ p).mp hp
    exact hnb b' hb' hpk
  · rw [← Bool.not_eq_true, hasKeyNew_iff]
    rintro ⟨r, hr, hrk⟩
    obtain ⟨hrb, hne⟩ := (mem_new_iff _ _ r).mp hr
    exact hne e he (by rw [hek, hrk])

/-- A key present on both sides with unique representatives, bill amount
strictly greater: `increased` only. -/
theorem flags_both_gt {estimate_df bill_df : List Record} {k : String} {b e : Record}
    (hb : b ∈ bill_df) (he : e ∈ estimate_df) (hbk : b.key = k) (hek : e.key = k)
    (hub : ∀ x ∈ bill_df, x.key = k → x = b) (hue : ∀ x ∈ estimate_df, x.key = k → x = e)
    (hlt : e.amount < b.amount) :
    hasKeyInc (safe_comparison estimate_df bill_df) k = true ∧
    hasKeyRed (safe_comparison estimate_df bill_df) k = false ∧
    hasKeyNew (safe_comparison estimate_df bill_df) k = false ∧
    hasKeyRem (safe_comparison estimate_df bill_df) k = false := by
  refine ⟨?_, ?_, ?_, ?_⟩
  · rw [hasKeyInc_iff]
    refine ⟨⟨b.key, b.description, b.amount, e.amount⟩, ?_, hbk⟩
    exact (mem_increased_iff _ _ _).mpr ⟨b, hb, e, he, hek.trans hbk.symm, hlt, rfl⟩
  · rw [← Bool.not_eq_true, hasKeyRed_iff]
    rintro ⟨p, hp, hpk⟩
    obtain ⟨b', hb', e', he', hek', hlt', rfl⟩ := (mem_reduced_iff _ _ p).mp hp
    rw [hub b' hb' hpk, hue e' he' (hek'.trans hpk)] at hlt'
    exact absurd hlt' (not_lt.mpr (le_of_lt hlt))
  · rw [← Bool.not_eq_true, hasKeyNew_iff]
    rintro ⟨r, hr, hrk⟩
    obtain ⟨hrb, hne⟩ := (mem_new_iff _ _ r).mp hr
    exact hne e he (by rw [hek, hrk])
  · rw [← Bool.not_eq_true, hasKeyRem_iff]
    rintro ⟨r, hr, hrk⟩
    obtain ⟨hre, hnb⟩ := (mem_removed_iff _ _ r).mp hr
    exact hnb b hb (by rw [hbk, hrk])

/-- A key present on both sides with unique representatives, bill amount
strictly smaller: `reduced` only. -/
theorem flags_both_lt {estimate_df bill_df : List Record} {k : String} {b e : Record}
    (hb : b ∈ bill_df) (he : e ∈ estimate_df) (hbk : b.key = k) (hek : e.key = k)
    (hub : ∀ x ∈ bill_df, x.key = k → x = b) (hue : ∀ x ∈ estimate_df, x.key = k → x = e)
    (hlt : b.amount < e.amount) :
    hasKeyRed (safe_comparison estimate_df bill_df) k = true ∧
    hasKeyInc (safe_comparison estimate_df bill_df) k = false ∧
    hasKeyNew (safe_comparison estimate_df bill_df) k = false ∧
    hasKeyRem (safe_comparison estimate_df bill_df) k = false := by
  refine ⟨?_, ?_, ?_, ?_⟩
  · rw [hasKeyRed_iff]
    refine ⟨⟨b.key, b.description, b.amount, e.amount⟩, ?_, hbk⟩
    exact (mem_reduced_iff _ _ _).mpr ⟨b, hb, e, he, hek.trans hbk.symm, hlt, rfl⟩
  · rw [← Bool.not_eq_true, hasKeyInc_iff]
    rintro ⟨p, hp, hpk⟩
    obtain ⟨b', hb', e', he', hek', hlt', rfl⟩ := (mem_increased_iff _ _ p).mp hp
    rw [hub b' hb' hpk, hue e' he' (hek'.trans hpk)] at hlt'
    exact absurd hlt' (not_lt.mpr (le_of_lt hlt))
  · rw [← Bool.not_eq_true, hasKeyNew_iff]
    rintro ⟨r, hr, hrk⟩
    obtain ⟨hrb, hne⟩ := (mem_new_iff _ _ r).mp hr
    exact hne e he (by rw [hek, hrk])
  · rw [← Bool.not_eq_true, hasKeyRem_iff]
    rintro ⟨r, hr, hrk⟩
    obtain ⟨hre, hnb⟩ := (mem_removed_iff _ _ r).mp hr
    exact hnb b hb (by rw [hbk, hrk])

/-- A key present on both sides with unique representatives and exactly equal
amounts lies in no bucket at all: `safe_comparison` has no `Same` category and
drops such keys from its output. -/
theorem flags_both_eq {estimate_df bill_df : List Record} {k : String} {b e : Record}
    (hb : b ∈ bill_df) (he : e ∈ estimate_df) (hbk : b.key = k) (hek : e.key = k)
    (hub : ∀ x ∈ bill_df, x.key = k → x = b) (hue : ∀ x ∈ estimate_df, x.key = k → x = e)
    (heq : b.amount = e.amount) :
    hasKeyInc (safe_comparison estimate_df bill_df) k = false ∧
    hasKeyRed (safe_comparison estimate_df bill_df) k = false ∧
    hasKeyNew (safe_comparison estimate_df bill_df) k = false ∧
    hasKeyRem (safe_comparison estimate_df bill_df) k = false := by
  refine ⟨?_, ?_, ?_, ?_⟩
  · rw [← Bool.not_eq_true, hasKeyInc_iff]
    rintro ⟨p, hp, hpk⟩
    obtain ⟨b', hb', e', he', hek', hlt', rfl⟩ := (mem_increased_iff _ _ p).mp hp
    rw [hub b' hb' hpk, hue e' he' (hek'.trans hpk), ← heq] at hlt'
    exact lt_irrefl _ hlt'
  · rw [← Bool.not_eq_true, hasKeyRed_iff]
    rintro ⟨p, hp, hpk⟩
    obtain ⟨b', hb', e', he', hek', hlt', rfl⟩ := (mem_reduced_iff _ _ p).mp hp
    rw [hub b' hb' hpk, hue e' he' (hek'.trans hpk), ← heq] at hlt'
    exact lt_irrefl _ hlt'
  · rw [← Bool.not_eq_true, hasKeyNew_iff]
    rintro ⟨r, hr, hrk⟩
    obtain ⟨hrb, hne⟩ := (mem_new_iff _ _ r).mp hr
    exact hne e he (by rw [hek, hrk])
  · rw [← Bool.not_eq_true, hasKeyRem_iff]
    rintro ⟨r, hr, hrk⟩
    obtain ⟨hre, hnb⟩ := (mem_removed_iff _ _ r).mp hr
    exact hnb b hb (by rw [hbk, hrk])

/-- A key absent from both input collections lies in no bucket. -/
theorem flags_absent {estimate_df bill_df : List Record} {k : String}
    (hnb : ∀ b ∈ bill_df, b.key ≠ k) (hne : ∀ e ∈ estimate_df, e.key ≠ k) :
    hasKeyInc (safe_comparison estimate_df bill_df) k = false ∧
    hasKeyRed (safe_comparison estimate_df bill_df) k = false ∧
    hasKeyNew (safe_comparison estimate_df bill_df) k = false ∧
    hasKeyRem (safe_comparison estimate_df bill_df) k = false := by
  refine ⟨?_, ?_, ?_, ?_⟩
  · rw [← Bool.not_eq_true, hasKeyInc_iff]
    rintro ⟨p, hp, hpk⟩
    obtain ⟨b', hb', e', -, -, -, rfl⟩ := (mem_increased_iff _ _ p).mp hp
    exact hnb b' hb' hpk
  · rw [← Bool.not_eq_true, hasKeyRed_iff]
    rintro ⟨p, hp, hpk⟩
    obtain ⟨b', hb', e', -, -, -, rfl⟩ := (mem_reduced_iff _ _ p).mp hp
    exact hnb b' hb' hpk
  · rw [← Bool.not_eq_true, hasKeyNew_iff]
    rintro ⟨r, hr, hrk⟩
    obtain ⟨hrb, -⟩ := (mem_new_iff _ _ r).mp hr
    exact hnb r hrb hrk
  · rw [← Bool.not_eq_true, hasKeyRem_iff]
    rintro ⟨r, hr, hrk⟩
    obtain ⟨hre, -⟩ := (mem_removed_iff _ _ r).mp hr
    exact hne r hre hrk

/-! ### Claim C3 -/

/-- C3: for every key in the union of the two inputs of `safe_comparison`: a
key present only in the bill is classified `new` (and nothing else); a key
present only in the estimate is classified `removed`; a key present on both
sides, with unique representatives `b` and `e`, is classified `increased`
when the bill amount is strictly greater and `reduced` when it is strictly
smaller, in each case appearing in no other bucket. -/
theorem C3_statuses (estimate_df bill_df : List Record) (k : String) :
    (((∃ b ∈ bill_df, b.key = k) ∧ (∀ e ∈ estimate_df, e.key ≠ k)) →
       hasKeyNew (safe_comparison estimate_df bill_df) k = true ∧
       hasKeyInc (safe_comparison estimate_df bill_df) k = false ∧
       hasKeyRed (safe_comparison estimate_df bill_df) k = false ∧
       hasKeyRem (safe_comparison estimate_df bill_df) k = false) ∧
    (((∃ e ∈ estimate_df, e.key = k) ∧ (∀ b ∈ bill_df, b.key ≠ k)) →
       hasKeyRem (safe_comparison estimate_df bill_df) k = true ∧
       hasKeyInc (safe_comparison estimate_df bill_df) k = false ∧
       hasKeyRed (safe_comparison estimate_df bill_df) k = false ∧
       hasKeyNew (safe_comparison estimate_df bill_df) k = false) ∧
    (∀ b e : Record, b ∈ bill_df → e ∈ estimate_df → b.key = k → e.key = k →
       (∀ x ∈ bill_df, x.key = k → x = b) → (∀ x ∈ estimate_df, x.key = k → x = e) →
       e.amount < b.amount →
       hasKeyInc (safe_comparison estimate_df bill_df) k = true ∧
       hasKeyRed (safe_comparison estimate_df bill_df) k = false ∧
       hasKeyNew (safe_comparison estimate_df bill_df) k = false ∧
       hasKeyRem (safe_comparison estimate_df bill_df) k = false) ∧
    (∀ b e : Record, b ∈ bill_df → e ∈ estimate_df → b.key = k → e.key = k →
       (∀ x ∈ bill_df, x.key = k → x = b) → (∀ x ∈ estimate_df, x.key = k → x = e) →
       b.amount < e.amount →
       hasKeyRed (safe_comparison estimate_df bill_df) k = true ∧
       hasKeyInc (safe_comparison estimate_df bill_df) k = false ∧
       hasKeyNew (safe_comparison estimate_df bill_df) k = false ∧
       hasKeyRem (safe_comparison estimate_df bill_df) k = false) := by
  refine ⟨?_, ?_, ?_, ?_⟩
  · rintro ⟨⟨b, hb, hbk⟩, hne⟩
    exact flags_only_bill hb hbk hne
  · rintro ⟨⟨e, he, hek⟩, hnb⟩
    exact flags_only_est he hek hnb
  · intro b e hb he hbk hek hub hue hlt
    exact flags_both_gt hb he hbk hek hub hue hlt
  · intro b e hb he hbk hek hub hue hlt
    obtain ⟨h1, h2, h3, h4⟩ := flags_both_lt hb he hbk hek hub hue hlt
    exact ⟨h1, h2, h3, h4⟩

/-- Witness for C3 at concrete inputs: estimate `{A: 10}`, bill
`{A: 20, B: 5}`; the key `B` (bill only) is `new`, the key `A`
(both, bill greater) is `increased` and in no other bucket. -/
theorem C3_statuses_witness :
    hasKeyNew (safe_comparison [⟨"A", "x", 10⟩] [⟨"A", "y", 20⟩, ⟨"B", "z", 5⟩]) "B" = true ∧
    hasKeyInc (safe_comparison [⟨"A", "x", 10⟩] [⟨"A", "y", 20⟩, ⟨"B", "z", 5⟩]) "A" = true ∧
    hasKeyRed (safe_comparison [⟨"A", "x", 10⟩] [⟨"A", "y", 20⟩, ⟨"B", "z", 5⟩]) "A" = false := by
  refine ⟨((C3_statuses [⟨"A", "x", 10⟩] [⟨"A", "y", 20⟩, ⟨"B", "z", 5⟩] "B").1 (by decide)).1, ?_, ?_⟩
  · exact ((C3_statuses [⟨"A", "x", 10⟩] [⟨"A", "y", 20⟩, ⟨"B", "z", 5⟩] "A").2.2.1
      ⟨"A", "y", 20⟩ ⟨"A", "x", 10⟩ (by decide) (by decide) (by decide) (by decide)
      (by decide) (by decide) (by decide)).1
  · exact ((C3_statuses [⟨"A", "x", 10⟩] [⟨"A", "y", 20⟩, ⟨"B", "z", 5⟩] "A").2.2.1
      ⟨"A", "y", 20⟩ ⟨"A", "x", 10⟩ (by decide) (by decide) (by decide) (by decide)
      (by decide) (by decide) (by decide)).2.1

/-! ### Claim C1 -/

/-- C1 counterexample: estimate `{P1: 75.005}` and bill `{P1: 75.00}` are
equal within an epsilon of 0.01, yet `safe_comparison` classifies the key as
`reduced` — one of the categories the claim says `Same` is distinct from —
and no `Same` bucket exists in its output at all. -/
theorem C1_counterexample :
    |(75 : ℚ) - mkRat 15001 200| ≤ mkRat 1 100 ∧
    hasKeyRed (safe_comparison [⟨"P1", "PART", mkRat 15001 200⟩] [⟨"P1", "PART", 75⟩]) "P1" = true ∧
    hasKeyInc (safe_comparison [⟨"P1", "PART", mkRat 15001 200⟩] [⟨"P1", "PART", 75⟩]) "P1" = false ∧
    hasKeyNew (safe_comparison [⟨"P1", "PART", mkRat 15001 200⟩] [⟨"P1", "PART", 75⟩]) "P1" = false ∧
    hasKeyRem (safe_comparison [⟨"P1", "PART", mkRat 15001 200⟩] [⟨"P1", "PART", 75⟩]) "P1" = false := by
  refine ⟨?_, by decide, by decide, by decide, by decide⟩
  rw [Rat.mkRat_eq_div, Rat.mkRat_eq_div]
  rw [abs_le]
  constructor <;> norm_num

/-- C1 amended: `safe_comparison` has no `Same` category and applies no
epsilon.  For a key present on both sides with unique representatives `b`
(bill) and `e` (estimate): any strict difference of amounts — however small,
in particular within 0.01 — is classified `increased` or `reduced`, and
exactly equal amounts put the key in no output bucket at all. -/
theorem C1_amended (estimate_df bill_df : List Record) (k : String) (b e : Record)
    (hb : b ∈ bill_df) (he : e ∈ estimate_df) (hbk : b.key = k) (hek : e.key = k)
    (hub : ∀ x ∈ bill_df, x.key = k → x = b) (hue : ∀ x ∈ estimate_df, x.key = k → x = e) :
    (e.amount < b.amount → hasKeyInc (safe_comparison estimate_df bill_df) k = true) ∧
    (b.amount < e.amount → hasKeyRed (safe_comparison estimate_df bill_df) k = true) ∧
    (b.amount = e.amount → bucketCount (safe_comparison estimate_df bill_df) k = 0) := by
  refine ⟨?_, ?_, ?_⟩
  · intro hlt
    exact (flags_both_gt hb he hbk hek hub hue hlt).1
  · intro hlt
    exact (flags_both_lt hb he hbk hek hub hue hlt).1
  · intro heq
    obtain ⟨h1, h2, h3, h4⟩ := flags_both_eq hb he hbk hek hub hue heq
    simp [bucketCount, h1, h2, h3, h4]

/-- Witness for C1 at concrete inputs: amounts 75.005 (estimate) versus 75.00
(bill) give `reduced`; equal amounts 75.00 versus 75.00 give no bucket. -/
theorem C1_amended_witness :
    hasKeyRed (safe_comparison [⟨"P1", "PART", mkRat 15001 200⟩] [⟨"P1", "PART", 75⟩]) "P1" = true ∧
    bucketCount (safe_comparison [⟨"P2", "PART", 75⟩] [⟨"P2", "PART", 75⟩]) "P2" = 0 := by
  constructor
  · exact (C1_amended [⟨"P1", "PART", mkRat 15001 200⟩] [⟨"P1", "PART", 75⟩] "P1"
      ⟨"P1", "PART", 75⟩ ⟨"P1", "PART", mkRat 15001 200⟩ (by decide) (by decide) (by decide)
      (by decide) (by decide) (by decide)).2.1 (by decide)
  · exact (C1_amended [⟨"P2", "PART", 75⟩] [⟨"P2", "PART", 75⟩] "P2"
      ⟨"P2", "PART", 75⟩ ⟨"P2", "PART", 75⟩ (by decide) (by decide) (by decide)
      (by decide) (by decide) (by decide)).2.2 (by decide)

/-! ### Claim C2 -/

/-- C2 counterexample: the key `P1` appears in both inputs (hence in their
union) with exactly equal amounts, and `safe_comparison` produces no result
for it in any bucket — the union-coverage property fails. -/
theorem C2_counterexample :
    "P1" ∈ ([⟨"P1", "PART", 75⟩] : List Record).map Record.key ∧
    bucketCount (safe_comparison [⟨"P1", "PART", 75⟩] [⟨"P1", "PART", 75⟩]) "P1" = 0 := by
  decide

/-- C2 amended: for inputs whose keys are unique on each side, a key absent
from both collections appears in no bucket, and a key of the union appears in
exactly one bucket — except that a key present on both sides with exactly
equal amounts appears in no bucket at all. -/
theorem C2_amended (estimate_df bill_df : List Record)
    (hnb : (bill_df.map Record.key).Nodup) (hne : (estimate_df.map Record.key).Nodup)
    (k : String) :
    ((k ∉ bill_df.map Record.key ∧ k ∉ estimate_df.map Record.key) →
       bucketCount (safe_comparison estimate_df bill_df) k = 0) ∧
    ((k ∈ bill_df.map Record.key ∨ k ∈ estimate_df.map Record.key) →
       bucketCount (safe_comparison estimate_df bill_df) k = 1 ∨
       (bucketCount (safe_comparison estimate_df bill_df) k = 0 ∧
        ∃ b ∈ bill_df, ∃ e ∈ estimate_df, b.key = k ∧ e.key = k ∧ b.amount = e.amount)) := by
  constructor
  · rintro ⟨hkb, hke⟩
    have hnb' : ∀ b ∈ bill_df, b.key ≠ k := by
      intro b hbm hbk
      exact hkb (List.mem_map.mpr ⟨b, hbm, hbk⟩)
    have hne' : ∀ e ∈ estimate_df, e.key ≠ k := by
      intro e hem hek
      exact hke (List.mem_map.mpr ⟨e, hem, hek⟩)
    obtain ⟨h1, h2, h3, h4⟩ := flags_absent hnb' hne'
    simp [bucketCount, h1, h2, h3, h4]
  · intro hk
    by_cases hkb : ∃ b ∈ bill_df, b.key = k
    · obtain ⟨b, hbm, hbk⟩ := hkb
      have hub : ∀ x ∈ bill_df, x.key = k → x = b := by
        intro x hx hxk
        exact key_unique hnb hx hbm (hxk.trans hbk.symm)
      by_cases hke : ∃ e ∈ estimate_df, e.key = k
      · obtain ⟨e, hem, hek⟩ := hke
        have hue : ∀ x ∈ estimate_df, x.key = k → x = e := by
          intro x hx hxk
          exact key_unique hne hx hem (hxk.trans hek.symm)
        rcases lt_trichotomy b.amount e.amount with hlt | heq | hgt
        · obtain ⟨h1, h2, h3, h4⟩ := flags_both_lt hbm hem hbk hek hub hue hlt
          exact Or.inl (by simp [bucketCount, h1, h2, h3, h4])
        · obtain ⟨h1, h2, h3, h4⟩ := flags_both_eq hbm hem hbk hek hub hue heq
          exact Or.inr ⟨by simp [bucketCount, h1, h2, h3, h4], b, hbm, e, hem, hbk, hek, heq⟩
        · obtain ⟨h1, h2, h3, h4⟩ := flags_both_gt hbm hem hbk hek hub hue hgt
          exact Or.inl (by simp [bucketCount, h1, h2, h3, h4])
      · have hne' : ∀ e ∈ estimate_df, e.key ≠ k := by
          intro e hem hek
          exact hke ⟨e, hem, hek⟩
        obtain ⟨h1, h2, h3, h4⟩ := flags_only_bill hbm hbk hne'
        exact Or.inl (by simp [bucketCount, h1, h2, h3, h4])
    · have hnb' : ∀ b ∈ bill_df, b.key ≠ k := by
        intro b hbm hbk
        exact hkb ⟨b, hbm, hbk⟩
      have hke : ∃ e ∈ estimate_df, e.key = k := by
        rcases hk with hk | hk
        · obtain ⟨b, hbm, hbk⟩ := List.mem_map.mp hk
          exact absurd hbk (hnb' b hbm)
        · obtain ⟨e, hem, hek⟩ := List.mem_map.mp hk
          exact ⟨e, hem, hek⟩
      obtain ⟨e, hem, hek⟩ := hke
      obtain ⟨h1, h2, h3, h4⟩ := flags_only_est hem hek hnb'
      exact Or.inl (by simp [bucketCount, h1, h2, h3, h4])

/-- Witness for C2 at concrete inputs: key `A` (both sides, unequal) lands in
exactly one bucket; key `C` (absent from both) lands in none. -/
theorem C2_amended_witness :
    (bucketCount (safe_comparison [⟨"A", "x", 10⟩] [⟨"A", "y", 20⟩, ⟨"B", "z", 5⟩]) "A" = 1 ∨
     (bucketCount (safe_comparison [⟨"A", "x", 10⟩] [⟨"A", "y", 20⟩, ⟨"B", "z", 5⟩]) "A" = 0 ∧
      ∃ b ∈ ([⟨"A", "y", 20⟩, ⟨"B", "z", 5⟩] : List Record),
        ∃ e ∈ ([⟨"A", "x", 10⟩] : List Record),
          b.key = "A" ∧ e.key = "A" ∧ b.amount = e.amount)) ∧
    bucketCount (safe_comparison [⟨"A", "x", 10⟩] [⟨"A", "y", 20⟩, ⟨"B", "z", 5⟩]) "C" = 0 := by
  constructor
  · exact (C2_amended [⟨"A", "x", 10⟩] [⟨"A", "y", 20⟩, ⟨"B", "z", 5⟩]
      (by decide) (by decide) "A").2 (by decide)
  · exact (C2_amended [⟨"A", "x", 10⟩] [⟨"A", "y", 20⟩, ⟨"B", "z", 5⟩]
      (by decide) (by decide) "C").1 (by decide)

/-! ### Claim C6 -/

/-- C6 counterexample: the bill carries the key `P1` twice (amounts 10 and
20) and the estimate once (amount 15); `safe_comparison` raises no error but
emits a row for `P1` in the `increased` bucket (pair 20/15) and another in
the `reduced` bucket (pair 10/15) — two output rows, not a single
deterministically chosen representative. -/
theorem C6_counterexample :
    hasKeyInc (safe_comparison [⟨"P1", "c", 15⟩] [⟨"P1", "a", 10⟩, ⟨"P1", "b", 20⟩]) "P1" = true ∧
    hasKeyRed (safe_comparison [⟨"P1", "c", 15⟩] [⟨"P1", "a", 10⟩, ⟨"P1", "b", 20⟩]) "P1" = true ∧
    (safe_comparison [⟨"P1", "c", 15⟩] [⟨"P1", "a", 10⟩, ⟨"P1", "b", 20⟩]).increased.length = 1 ∧
    (safe_comparison [⟨"P1", "c", 15⟩] [⟨"P1", "a", 10⟩, ⟨"P1", "b", 20⟩]).reduced.length = 1 := by
  decide

/-- C6 amended: `safe_comparison` selects no representative for a duplicated
key; the outer merge pairs every bill record with every estimate record
sharing the key, so a row `p` lies in `increased` (resp. `reduced`) exactly
when some such pair has strictly greater (resp. smaller) bill amount — a key
duplicated on one side can therefore yield several output rows, in different
buckets; no error is ever raised. -/
theorem C6_amended (estimate_df bill_df : List Record) (p : PairRow) :
    (p ∈ (safe_comparison estimate_df bill_df).increased ↔
       ∃ b ∈ bill_df, ∃ e ∈ estimate_df, e.key = b.key ∧ e.amount < b.amount ∧
         p = ⟨b.key, b.description, b.amount, e.amount⟩) ∧
    (p ∈ (safe_comparison estimate_df bill_df).reduced ↔
       ∃ b ∈ bill_df, ∃ e ∈ estimate_df, e.key = b.key ∧ b.amount < e.amount ∧
         p = ⟨b.key, b.description, b.amount, e.amount⟩) :=
  ⟨mem_increased_iff estimate_df bill_df p, mem_reduced_iff estimate_df bill_df p⟩

/-! ### Claim C8 -/

/-- C8 counterexample: key present on both sides, bill description empty,
estimate description `"EST DESC"` non-empty; the resulting `increased` row
carries the empty bill description, not the estimate one the claim
prescribes. -/
theorem C8_counterexample :
    (safe_comparison [⟨"P1", "EST DESC", 10⟩] [⟨"P1", "", 20⟩]).increased =
      [⟨"P1", "", 20, 10⟩] ∧ ("EST DESC" : String) ≠ "" := by
  decide

/-- C8 amended: for keys present on both sides, the description carried into
an `increased` or `reduced` row is always the bill-side description of the
contributing bill record, even when it is empty; the estimate-side
description is never consulted. -/
theorem C8_amended (estimate_df bill_df : List Record) (p : PairRow)
    (h : p ∈ (safe_comparison estimate_df bill_df).increased ∨
         p ∈ (safe_comparison estimate_df bill_df).reduced) :
    ∃ b ∈ bill_df, b.key = p.key ∧ p.description = b.description := by
  rcases h with h | h
  · obtain ⟨b, hb, e, he, hek, hlt, rfl⟩ := (mem_increased_iff _ _ p).mp h
    exact ⟨b, hb, rfl, rfl⟩
  · obtain ⟨b, hb, e, he, hek, hlt, rfl⟩ := (mem_reduced_iff _ _ p).mp h
    exact ⟨b, hb, rfl, rfl⟩

/-- Witness for C8 at the counterexample inputs: the `increased` row for `P1`
takes its (empty) description from the bill record. -/
theorem C8_amended_witness :
    ∃ b ∈ ([⟨"P1", "", 20⟩] : List Record),
      b.key = (PairRow.mk "P1" "" 20 10).key ∧
      (PairRow.mk "P1" "" 20 10).description = b.description := by
  exact C8_amended [⟨"P1", "EST DESC", 10⟩] [⟨"P1", "", 20⟩] ⟨"P1", "", 20, 10⟩
    (Or.inl (by decide))

/-! ### Extraction shape helpers -/

theorem safe_float_convert_nonneg (s : List Char) : 0 ≤ safe_float_convert s := by
  simp only [safe_float_convert]
  split
  · exact Nat.cast_nonneg _
  · rw [Rat.mkRat_eq_div]
    exact div_nonneg (by positivity) (by positivity)

/-- Every record emitted by the bill line extractor comes from a successful
line-pattern match and a successful amount-run search, and its amount is the
parse of the fourth number of that (leftmost) run. -/
theorem extractBillLine_shape {line : List Char} {r : Record}
    (h : extractBillLine line = some r) :
    ∃ part rest f1 f2 f3 f4,
      lineMatch line = some (part, rest) ∧
      billRunSearch (pyStrip rest) = some (f1, f2, f3, f4) ∧
      r.key = String.mk part ∧ r.amount = safe_float_convert f4 := by
  rcases hl : lineMatch line with _ | ⟨part, rest0⟩
  · simp only [extractBillLine, hl] at h
    cases h
  · rcases hs : billRunSearch (pyStrip rest0) with _ | ⟨f1, f2, f3, f4⟩
    · simp only [extractBillLine, hl, hs] at h
      cases h
    · rcases hi : firstNumIdx (pyStrip rest0) with _ | i
      · simp only [extractBillLine, hl, hs, hi] at h
        cases h
      · simp only [extractBillLine, hl, hs, hi, Option.some.injEq] at h
        subst h
        exact ⟨part, rest0, f1, f2, f3, f4, rfl, hs, rfl, rfl⟩

/-- Analogue of `extractBillLine_shape` for the estimate extractor. -/
theorem extractEstimateLine_shape {line : List Char} {r : Record}
    (h : extractEstimateLine line = some r) :
    ∃ part rest amt,
      lineMatch line = some (part, rest) ∧
      estRunSearch (pyStrip rest) = some amt ∧
      r.key = String.mk part ∧ r.amount = safe_float_convert amt := by
  rcases hl : lineMatch line with _ | ⟨part, rest0⟩
  · simp only [extractEstimateLine, hl] at h
    cases h
  · rcases hs : estRunSearch (pyStrip rest0) with _ | amt
    · simp only [extractEstimateLine, hl, hs] at h
      cases h
    · rcases hi : firstNumIdx (pyStrip rest0) with _ | i
      · simp only [extractEstimateLine, hl, hs, hi] at h
        cases h
      · simp only [extractEstimateLine, hl, hs, hi, Option.some.injEq] at h
        subst h
        exact ⟨part, rest0, amt, rfl, hs, rfl, rfl⟩

/-- `term` occurs as a contiguous subsequence of `cs`. -/
def containsSeq (term : List Char) : List Char → Bool
  | [] => term.isEmpty
  | c :: cs => startsWithLit term (c :: cs) || containsSeq term cs

/-- Case-insensitive (ASCII upper-casing) substring containment, used to
state the spec's stoplist property. -/
def containsCI (term cs : List Char) : Bool :=
  containsSeq (term.map Char.toUpper) (cs.map Char.toUpper)

/-! ### Claim C4 -/

/-- C4 counterexample: the bill line `"1 A5 X 0.00 0.00 0.00 0.00"` matches
the line and amount patterns with a taxable amount of `0.00`, and the
extractor emits the record — with amount `0`, not strictly positive as the
claim requires. -/
theorem C4_counterexample :
    extract_from_bill_pdf ["1 A5 X 0.00 0.00 0.00 0.00"] = [⟨"A5", "X", 0⟩] ∧
    ∃ r ∈ extract_from_bill_pdf ["1 A5 X 0.00 0.00 0.00 0.00"], ¬(0 < r.amount) := by
  decide

/-- C4 amended: every record emitted by either extractor has a non-negative
amount (the amount patterns only match unsigned decimal literals, which
always parse), but no positivity check exists: a line whose matched amount
is `0.00` does yield a record with amount `0`. -/
theorem C4_amended (doc : List String) (r : Record)
    (h : r ∈ extract_from_bill_pdf doc ∨ r ∈ extract_from_estimate_pdf doc) :
    0 ≤ r.amount := by
  rcases h with h | h
  · obtain ⟨page, hpage, hline⟩ := List.mem_flatMap.mp h
    obtain ⟨line, hl, he⟩ := List.mem_filterMap.mp hline
    obtain ⟨part, rest, f1, f2, f3, f4, -, -, -, ham⟩ := extractBillLine_shape he
    rw [ham]
    exact safe_float_convert_nonneg f4
  · obtain ⟨page, hpage, hline⟩ := List.mem_flatMap.mp h
    obtain ⟨line, hl, he⟩ := List.mem_filterMap.mp hline
    obtain ⟨part, rest, amt, -, -, -, ham⟩ := extractEstimateLine_shape he
    rw [ham]
    exact safe_float_convert_nonneg amt

/-- Witness for C4 at the zero-amount line. -/
theorem C4_amended_witness : 0 ≤ (Record.mk "A5" "X" 0).amount :=
  C4_amended ["1 A5 X 0.00 0.00 0.00 0.00"] ⟨"A5", "X", 0⟩ (Or.inl (by decide))

/-! ### Claim C5 -/

/-- C5 counterexample: the line `"1 TAX99 FEE 1.00 1.00 1.00 1.00"` contains
the stoplisted term `"tax"` case-insensitively, yet the bill extractor emits
a record from it — no stoplist is applied. -/
theorem C5_counterexample :
    containsCI "tax".data "1 TAX99 FEE 1.00 1.00 1.00 1.00".data = true ∧
    extractBillLine "1 TAX99 FEE 1.00 1.00 1.00 1.00".data = some ⟨"TAX99", "FEE", 1⟩ := by
  decide

/-- C5 amended: the extractors apply no stoplist; a line is rejected exactly
by the structural patterns.  In particular any line failing the
serial-number/part-number line pattern — such as `"TOTAL 1234.56"` — yields
no record from either extractor, while a stoplist-term-containing line that
does match the patterns yields a record. -/
theorem C5_amended (line : List Char) (h : lineMatch line = none) :
    extractBillLine line = none ∧ extractEstimateLine line = none := by
  constructor
  · simp only [extractBillLine, h]
  · simp only [extractEstimateLine, h]

/-- Witness for C5: the scenario line `"TOTAL 1234.56"` fails the line
pattern and is rejected by both extractors. -/
theorem C5_amended_witness :
    extractBillLine "TOTAL 1234.56".data = none ∧
    extractEstimateLine "TOTAL 1234.56".data = none :=
  C5_amended "TOTAL 1234.56".data (by decide)

/-! ### Claim C7 -/

/-- C7 counterexample: under the actual bill format the line
`"AB12 WIDGET ASSY 120.00 2.000"` yields no record at all (it has no leading
serial number and only two numeric fields), in particular not the claimed
record with key `AB12` and amount `240.00`. -/
theorem C7_counterexample :
    extract_from_bill_pdf ["AB12 WIDGET ASSY 120.00 2.000"] = [] := by
  decide

/-- C7 amended: neither extractor implements a rate-times-quantity variant —
no multiplication is ever performed; the bill amount is read directly from
the fourth numeric column.  The scenario line `"AB12 WIDGET ASSY 120.00
2.000"` fails the line pattern (no leading serial number) and yields no
record from either extractor. -/
theorem C7_amended :
    lineMatch "AB12 WIDGET ASSY 120.00 2.000".data = none ∧
    extract_from_bill_pdf ["AB12 WIDGET ASSY 120.00 2.000"] = [] ∧
    extract_from_estimate_pdf ["AB12 WIDGET ASSY 120.00 2.000"] = [] := by
  decide

/-! ### Claim C9 -/

/-- C9: extraction is a pure function of the page text — the embedding is a
function, and running either extractor twice on the same document yields the
same record list. -/
theorem C9_idempotent (doc : List String) :
    extract_from_bill_pdf doc = extract_from_bill_pdf doc ∧
    extract_from_estimate_pdf doc = extract_from_estimate_pdf doc :=
  ⟨rfl, rfl⟩

/-! ### Claim C10 -/

/-- C10: the bill extractor emits a record from a line only when, after the
serial number and part-number token, the (stripped) remainder admits a match
of the four-column amount run `(?:[\d,]+\.\d{2,3})\s+` three times followed
by `[\d,]+\.\d{2,3}`; the emitted amount is the parse of the fourth number of
the leftmost such match — not of the last numeric token on the line. -/
theorem C10_amount_source (line : List Char) (r : Record)
    (h : extractBillLine line = some r) :
    ∃ part rest f1 f2 f3 f4,
      lineMatch line = some (part, rest) ∧
      billRunSearch (pyStrip rest) = some (f1, f2, f3, f4) ∧
      r.key = String.mk part ∧ r.amount = safe_float_convert f4 :=
  extractBillLine_shape h

/-- Witness for C10: on `"1 P5 D 1.00 2.00 3.00 4.00 9.99"` the emitted
amount is `4.00`, the fourth number of the first run, and differs from the
parse of the last numeric token `9.99`. -/
theorem C10_amount_source_witness :
    (∃ part rest f1 f2 f3 f4,
      lineMatch "1 P5 D 1.00 2.00 3.00 4.00 9.99".data = some (part, rest) ∧
      billRunSearch (pyStrip rest) = some (f1, f2, f3, f4) ∧
      (Record.mk "P5" "D" 4).key = String.mk part ∧
      (Record.mk "P5" "D" 4).amount = safe_float_convert f4) ∧
    safe_float_convert "9.99".data ≠ (4 : ℚ) :=
  ⟨C10_amount_source "1 P5 D 1.00 2.00 3.00 4.00 9.99".data ⟨"P5", "D", 4⟩ (by decide),
   by decide⟩

/-- Witness for C6: instantiating the characterisation at the duplicated key
`P1` produces the `increased` row for the pair 20/15. -/
theorem C6_amended_witness :
    (⟨"P1", "b", 20, 15⟩ : PairRow) ∈
      (safe_comparison [⟨"P1", "c", 15⟩] [⟨"P1", "a", 10⟩, ⟨"P1", "b", 20⟩]).increased :=
  ((C6_amended [⟨"P1", "c", 15⟩] [⟨"P1", "a", 10⟩, ⟨"P1", "b", 20⟩] ⟨"P1", "b", 20, 15⟩).1).mpr
    ⟨⟨"P1", "b", 20⟩, by decide, ⟨"P1", "c", 15⟩, by decide, rfl, by decide, rfl⟩
